import Mathlib

/-!
Verification of `pyglet/canvas/base.py`: the abstract display/screen/mode
layer of the pyglet windowing toolkit.

The module's only algorithm is `Screen.get_closest_mode`, a greedy fold over
the list of available screen modes.  The abstract methods (`get_screens`,
`get_modes`, `get_mode`, `set_mode`, `restore_mode`, `get_matching_configs`)
raise `NotImplementedError` in the base classes; methods built on top of them
(`get_default_screen`, `get_best_config`, `get_closest_mode`) are modelled
parametrically in the results of the overridable methods, matching Python's
late binding of `self.method()` calls.

Machine integers never overflow in Python, so widths, heights, depths and
rates are `Int` (with `depth` and `rate` optional: the docstring says they
may be `None`); Python `==` on possibly-`None` values is equality of
`Option Int`.  Raising an exception is modelled by `Except PyError`.
-/

namespace Pyglet

/-- Exceptions raised by the code under verification. -/
inductive PyError where
  | notImplementedError
  | noSuchConfigException
  | indexError
deriving DecidableEq, Repr

/-- `ScreenMode`: screen resolution and display settings (`width`, `height`,
`depth`, `rate`); `depth` and `rate` may be `None`. -/
structure ScreenMode where
  width : Int
  height : Int
  depth : Option Int
  rate : Option Int
deriving DecidableEq, Repr

/-- `Screen`: a virtual monitor, with position and current resolution. -/
structure Screen where
  x : Int
  y : Int
  width : Int
  height : Int
deriving DecidableEq, Repr

/-- `pyglet.gl.Config` lives outside this module; only the two keyword
arguments used at the call site in `get_best_config` are modelled. -/
structure Config where
  double_buffer : Bool
  depth_size : Option Int
deriving DecidableEq, Repr

/-- A mode survives the size filter of `get_closest_mode`: both of its
dimensions are at least the requested ones (the negation of the `continue`
guard `mode.width < width or mode.height < height`). -/
abbrev survives (width height : Int) (m : ScreenMode) : Prop :=
  width ≤ m.width ∧ height ≤ m.height

/-- The condition under which `get_closest_mode` replaces its candidate:
`mode.width <= best.width and mode.height <= best.height and
(mode.width < best.width or mode.height < best.height)`. -/
abbrev strictlyDominates (a b : ScreenMode) : Prop :=
  a.width ≤ b.width ∧ a.height ≤ b.height ∧ (a.width < b.width ∨ a.height < b.height)

/-- The tie-break preference of `get_closest_mode` against the current mode:
2 points for a matching refresh rate, 1 point for a matching color depth. -/
def score (current m : ScreenMode) : Int :=
  (if m.rate = current.rate then 2 else 0) + (if m.depth = current.depth then 1 else 0)

/-- One iteration of the `for mode in self.get_modes()` loop of
`Screen.get_closest_mode`, translated clause by clause from the source:
reject modes that are too small; initialise `best` on the first survivor;
replace `best` by a strictly dominating mode; on equal dimensions replace
`best` when the rate/depth point count is positive. -/
def closest_step (current : ScreenMode) (width height : Int)
    (best : Option ScreenMode) (mode : ScreenMode) : Option ScreenMode :=
  if mode.width < width ∨ mode.height < height then best
  else
    let b0 := best.getD mode
    let b1 := if mode.width ≤ b0.width ∧ mode.height ≤ b0.height ∧
                 (mode.width < b0.width ∨ mode.height < b0.height) then mode else b0
    if mode.width = b1.width ∧ mode.height = b1.height then
      let points : Int :=
        (if mode.rate = current.rate then 2 else 0)
          - (if b1.rate = current.rate then 2 else 0)
          + (if mode.depth = current.depth then 1 else 0)
          - (if b1.depth = current.depth then 1 else 0)
      if 0 < points then some mode else some b1
    else some b1

/-- `Screen.get_closest_mode(width, height)`, parametrised by the results of
the overridable calls `self.get_mode()` (`current`) and `self.get_modes()`
(`modes`). -/
def get_closest_mode (current : ScreenMode) (modes : List ScreenMode)
    (width height : Int) : Option ScreenMode :=
  modes.foldl (closest_step current width height) none

namespace Display

/-- `Display.get_screens` on the base class: `raise NotImplementedError`. -/
def get_screens : Except PyError (List Screen) :=
  .error .notImplementedError

/-- `Display.get_default_screen`: `return self.get_screens()[0]`, parametrised
by the result of the overridable call `self.get_screens()`.  Python indexing
`[0]` on an empty list raises `IndexError`. -/
def get_default_screen (screens : Except PyError (List Screen)) : Except PyError Screen :=
  match screens with
  | .error e => .error e
  | .ok [] => .error .indexError
  | .ok (s :: _) => .ok s

end Display

namespace Screen

/-- `Screen.get_modes` on the base class: `raise NotImplementedError`. -/
def get_modes : Except PyError (List ScreenMode) :=
  .error .notImplementedError

/-- `Screen.get_mode` on the base class: `raise NotImplementedError`. -/
def get_mode : Except PyError ScreenMode :=
  .error .notImplementedError

/-- `Screen.set_mode` on the base class: `raise NotImplementedError`. -/
def set_mode (mode : ScreenMode) : Except PyError Unit :=
  .error .notImplementedError

/-- `Screen.restore_mode` on the base class: `raise NotImplementedError`. -/
def restore_mode : Except PyError Unit :=
  .error .notImplementedError

/-- `Screen.get_matching_configs` on the base class: `raise NotImplementedError`. -/
def get_matching_configs (template : Option Config) : Except PyError (List Config) :=
  .error .notImplementedError

/-- The two GL config templates tried by `get_best_config` before the final
`None`: `gl.Config(double_buffer=True, depth_size=24)` and
`gl.Config(double_buffer=True, depth_size=16)`. -/
def default_templates : List (Option Config) :=
  [some ⟨true, some 24⟩, some ⟨true, some 16⟩, none]

/-- The `for template_config in [...]` loop of `get_best_config`: call
`get_matching_configs`, `break` on success, `pass` on
`NoSuchConfigException`; any other exception propagates.  The accumulator is
the Python variable `configs`, initially `None`. -/
def try_templates : List (Option Config) → Option (List Config) →
    Except PyError (Option (List Config))
  | [], configs => .ok configs
  | tc :: rest, configs =>
    match get_matching_configs tc with
    | .ok cs => .ok (some cs)
    | .error .noSuchConfigException => try_templates rest configs
    | .error e => .error e

/-- `Screen.get_best_config(template)`: with no template, try the default
templates; otherwise call `get_matching_configs(template)` directly; then
`if not configs: raise NoSuchConfigException` and `return configs[0]`
(`not configs` is true for both `None` and the empty list). -/
def get_best_config (template : Option Config) : Except PyError Config :=
  match (match template with
         | none => try_templates default_templates none
         | some t =>
           match get_matching_configs (some t) with
           | .ok cs => Except.ok (some cs)
           | .error e => Except.error e) with
  | .error e => .error e
  | .ok none => .error .noSuchConfigException
  | .ok (some []) => .error .noSuchConfigException
  | .ok (some (c :: _)) => .ok c

end Screen

/-! ### The selection function in closed form -/

/-- What one loop iteration selects once `best` is non-`None`: the incoming
mode replaces `best` when it strictly dominates it, or when it has the same
dimensions and a strictly higher rate/depth score. -/
def pick (current b m : ScreenMode) : ScreenMode :=
  if strictlyDominates m b then m
  else if m.width = b.width ∧ m.height = b.height ∧ score current b < score current m then m
  else b

lemma points_pos_iff (c b m : ScreenMode) :
    (0 < (if m.rate = c.rate then (2 : Int) else 0)
          - (if b.rate = c.rate then 2 else 0)
          + (if m.depth = c.depth then 1 else 0)
          - (if b.depth = c.depth then 1 else 0)) ↔ score c b < score c m := by
  unfold score
  by_cases h1 : m.rate = c.rate <;> by_cases h2 : b.rate = c.rate <;>
    by_cases h3 : m.depth = c.depth <;> by_cases h4 : b.depth = c.depth <;>
    simp [h1, h2, h3, h4]

lemma closest_step_eq (c : ScreenMode) (w h : Int) (best : Option ScreenMode)
    (m : ScreenMode) :
    closest_step c w h best m =
      if survives w h m then
        some (match best with
              | none => m
              | some b => pick c b m)
      else best := by
  by_cases hs : survives w h m
  · have hg : ¬ (m.width < w ∨ m.height < h) := by push_neg; exact hs
    cases best with
    | none =>
      have hd0 : ¬ (m.width ≤ m.width ∧ m.height ≤ m.height ∧
          (m.width < m.width ∨ m.height < m.height)) := by simp
      have hp0 : ¬ (0 < (if m.rate = c.rate then (2 : Int) else 0)
          - (if m.rate = c.rate then 2 else 0)
          + (if m.depth = c.depth then 1 else 0)
          - (if m.depth = c.depth then 1 else 0)) := by
        rw [points_pos_iff]; exact lt_irrefl _
      simp only [closest_step, if_neg hg, Option.getD_none, if_neg hd0,
        if_pos (⟨rfl, rfl⟩ : m.width = m.width ∧ m.height = m.height), if_neg hp0,
        if_pos hs, ite_self]
    | some b =>
      simp only [closest_step, if_neg hg, Option.getD_some, if_pos hs]
      by_cases hd : m.width ≤ b.width ∧ m.height ≤ b.height ∧
          (m.width < b.width ∨ m.height < b.height)
      · have hp0 : ¬ (0 < (if m.rate = c.rate then (2 : Int) else 0)
            - (if m.rate = c.rate then 2 else 0)
            + (if m.depth = c.depth then 1 else 0)
            - (if m.depth = c.depth then 1 else 0)) := by
          rw [points_pos_iff]; exact lt_irrefl _
        simp only [if_pos hd, if_pos (⟨rfl, rfl⟩ : m.width = m.width ∧ m.height = m.height),
          if_neg hp0, pick, if_pos (hd : strictlyDominates m b), ite_self]
      · simp only [if_neg hd]
        by_cases hdim : m.width = b.width ∧ m.height = b.height
        · by_cases hsc : score c b < score c m
          · have hp := (points_pos_iff c b m).mpr hsc
            simp only [if_pos hdim, if_pos hp, pick, if_neg (hd : ¬ strictlyDominates m b),
              if_pos (⟨hdim.1, hdim.2, hsc⟩ : m.width = b.width ∧ m.height = b.height ∧
                score c b < score c m)]
          · have hp : ¬ (0 < (if m.rate = c.rate then (2 : Int) else 0)
                - (if b.rate = c.rate then 2 else 0)
                + (if m.depth = c.depth then 1 else 0)
                - (if b.depth = c.depth then 1 else 0)) :=
              fun hp => hsc ((points_pos_iff c b m).mp hp)
            simp only [if_pos hdim, if_neg hp, pick, if_neg (hd : ¬ strictlyDominates m b),
              if_neg (show ¬ (m.width = b.width ∧ m.height = b.height ∧
                score c b < score c m) from fun hc => hsc hc.2.2)]
        · simp only [if_neg hdim, pick, if_neg (hd : ¬ strictlyDominates m b),
            if_neg (show ¬ (m.width = b.width ∧ m.height = b.height ∧
              score c b < score c m) from fun hc => hdim ⟨hc.1, hc.2.1⟩)]
  · have hg : m.width < w ∨ m.height < h := by
      by_contra hc
      push_neg at hc
      exact hs hc
    simp only [closest_step, if_pos hg, if_neg hs]

lemma not_strictlyDominates_self (a : ScreenMode) : ¬ strictlyDominates a a := by
  rintro ⟨-, -, hlt | hlt⟩ <;> exact lt_irrefl _ hlt

lemma strictlyDominates_of_le (x m b : ScreenMode) (hxm : strictlyDominates x m)
    (hw : m.width ≤ b.width) (hh : m.height ≤ b.height) : strictlyDominates x b := by
  obtain ⟨h1, h2, h3⟩ := hxm
  exact ⟨le_trans h1 hw, le_trans h2 hh,
    h3.imp (fun hlt => lt_of_lt_of_le hlt hw) (fun hlt => lt_of_lt_of_le hlt hh)⟩

lemma strictlyDominates_congr (x m b : ScreenMode) (hw : m.width = b.width)
    (hh : m.height = b.height) (hxm : strictlyDominates x m) : strictlyDominates x b := by
  obtain ⟨h1, h2, h3⟩ := hxm
  exact ⟨hw ▸ h1, hh ▸ h2, h3.imp (fun hlt => hw ▸ hlt) (fun hlt => hh ▸ hlt)⟩

lemma strictlyDominates_congr_left (x m b : ScreenMode) (hxw : x.width = m.width)
    (hxh : x.height = m.height) (hmb : strictlyDominates m b) : strictlyDominates x b := by
  obtain ⟨h1, h2, h3⟩ := hmb
  refine ⟨?_, ?_, ?_⟩
  · rw [hxw]; exact h1
  · rw [hxh]; exact h2
  · rw [hxw, hxh]; exact h3

/-! ### The loop invariant -/

/-- Properties of the loop candidate `best` after processing the modes in
`processed`: it is one of them, it survives the size filter, no processed
survivor strictly dominates it, and it has maximal rate/depth score among
processed survivors sharing its dimensions. -/
structure GoodBest (current : ScreenMode) (width height : Int)
    (processed : List ScreenMode) (b : ScreenMode) : Prop where
  mem : b ∈ processed
  surv : survives width height b
  not_dominated : ∀ m ∈ processed, survives width height m → ¬ strictlyDominates m b
  score_max : ∀ m ∈ processed, survives width height m →
    m.width = b.width → m.height = b.height → score current m ≤ score current b

/-- The loop invariant of `get_closest_mode`: `best` is `None` exactly while
no survivor has been seen, and otherwise satisfies `GoodBest`. -/
def Inv (current : ScreenMode) (width height : Int)
    (processed : List ScreenMode) (best : Option ScreenMode) : Prop :=
  (best = none → ∀ m ∈ processed, ¬ survives width height m) ∧
  (∀ b, best = some b → GoodBest current width height processed b)

lemma step_preserves (c : ScreenMode) (w h : Int) (pre : List ScreenMode)
    (best : Option ScreenMode) (m : ScreenMode) (H : Inv c w h pre best) :
    Inv c w h (pre ++ [m]) (closest_step c w h best m) := by
  by_cases hs : survives w h m
  · cases best with
    | none =>
      have hnone : ∀ x ∈ pre, ¬ survives w h x := H.1 rfl
      rw [closest_step_eq, if_pos hs]
      show Inv c w h (pre ++ [m]) (some m)
      refine ⟨fun hc => Option.noConfusion hc, fun b hb => ?_⟩
      injection hb with hb
      subst hb
      refine ⟨List.mem_append_right _ (List.mem_singleton_self m), hs, ?_, ?_⟩
      · intro x hx hsx
        rcases List.mem_append.mp hx with hx | hx
        · exact absurd hsx (hnone x hx)
        · rw [List.mem_singleton] at hx
          subst hx
          exact not_strictlyDominates_self x
      · intro x hx hsx hxw hxh
        rcases List.mem_append.mp hx with hx | hx
        · exact absurd hsx (hnone x hx)
        · rw [List.mem_singleton] at hx
          subst hx
          exact le_refl _
    | some b =>
      have hb : GoodBest c w h pre b := H.2 b rfl
      rw [closest_step_eq, if_pos hs]
      show Inv c w h (pre ++ [m]) (some (pick c b m))
      refine ⟨fun hc => Option.noConfusion hc, fun b' hb' => ?_⟩
      injection hb' with hb'
      subst hb'
      unfold pick
      by_cases hd : strictlyDominates m b
      · rw [if_pos hd]
        refine ⟨List.mem_append_right _ (List.mem_singleton_self m), hs, ?_, ?_⟩
        · intro x hx hsx hcon
          rcases List.mem_append.mp hx with hx | hx
          · exact hb.not_dominated x hx hsx (strictlyDominates_of_le x m b hcon hd.1 hd.2.1)
          · rw [List.mem_singleton] at hx
            subst hx
            exact not_strictlyDominates_self x hcon
        · intro x hx hsx hxw hxh
          rcases List.mem_append.mp hx with hx | hx
          · exact absurd (strictlyDominates_congr_left x m b hxw hxh hd)
              (hb.not_dominated x hx hsx)
          · rw [List.mem_singleton] at hx
            subst hx
            exact le_refl _
      · rw [if_neg hd]
        by_cases hcond : m.width = b.width ∧ m.height = b.height ∧ score c b < score c m
        · rw [if_pos hcond]
          obtain ⟨hmw, hmh, hsc⟩ := hcond
          refine ⟨List.mem_append_right _ (List.mem_singleton_self m), hs, ?_, ?_⟩
          · intro x hx hsx hcon
            rcases List.mem_append.mp hx with hx | hx
            · exact hb.not_dominated x hx hsx (strictlyDominates_congr x m b hmw hmh hcon)
            · rw [List.mem_singleton] at hx
              subst hx
              exact not_strictlyDominates_self x hcon
          · intro x hx hsx hxw hxh
            rcases List.mem_append.mp hx with hx | hx
            · exact le_trans (hb.score_max x hx hsx (hxw.trans hmw) (hxh.trans hmh))
                (le_of_lt hsc)
            · rw [List.mem_singleton] at hx
              subst hx
              exact le_refl _
        · rw [if_neg hcond]
          refine ⟨List.mem_append_left _ hb.mem, hb.surv, ?_, ?_⟩
          · intro x hx hsx
            rcases List.mem_append.mp hx with hx | hx
            · exact hb.not_dominated x hx hsx
            · rw [List.mem_singleton] at hx
              subst hx
              exact hd
          · intro x hx hsx hxw hxh
            rcases List.mem_append.mp hx with hx | hx
            · exact hb.score_max x hx hsx hxw hxh
            · rw [List.mem_singleton] at hx
              subst hx
              by_contra hlt
              push_neg at hlt
              exact hcond ⟨hxw, hxh, hlt⟩
  · rw [closest_step_eq, if_neg hs]
    obtain ⟨H1, H2⟩ := H
    refine ⟨fun hn x hx => ?_, fun b hbeq => ?_⟩
    · rcases List.mem_append.mp hx with hx | hx
      · exact H1 hn x hx
      · rw [List.mem_singleton] at hx
        subst hx
        exact hs
    · have hb := H2 b hbeq
      refine ⟨List.mem_append_left _ hb.mem, hb.surv, ?_, ?_⟩
      · intro x hx hsx
        rcases List.mem_append.mp hx with hx | hx
        · exact hb.not_dominated x hx hsx
        · rw [List.mem_singleton] at hx
          subst hx
          exact absurd hsx hs
      · intro x hx hsx hxw hxh
        rcases List.mem_append.mp hx with hx | hx
        · exact hb.score_max x hx hsx hxw hxh
        · rw [List.mem_singleton] at hx
          subst hx
          exact absurd hsx hs

lemma foldl_inv (c : ScreenMode) (w h : Int) :
    ∀ (modes pre : List ScreenMode) (best : Option ScreenMode),
      Inv c w h pre best →
      Inv c w h (pre ++ modes) (modes.foldl (closest_step c w h) best) := by
  intro modes
  induction modes with
  | nil =>
    intro pre best H
    simpa using H
  | cons x rest ih =>
    intro pre best H
    have hnext := ih (pre ++ [x]) (closest_step c w h best x)
      (step_preserves c w h pre best x H)
    rw [List.foldl_cons]
    simpa [List.append_assoc] using hnext

/-- After the whole loop, the invariant holds for the full mode list. -/
lemma closest_inv (c : ScreenMode) (w h : Int) (modes : List ScreenMode) :
    Inv c w h modes (get_closest_mode c modes w h) := by
  have H0 : Inv c w h [] none :=
    ⟨fun _ x hx => absurd hx (List.not_mem_nil x), fun b hb => Option.noConfusion hb⟩
  have := foldl_inv c w h modes [] none H0
  simpa [get_closest_mode] using this

/-- `get_closest_mode` returns `None` exactly when no mode survives. -/
lemma closest_none_iff (c : ScreenMode) (w h : Int) (modes : List ScreenMode) :
    get_closest_mode c modes w h = none ↔ ∀ m ∈ modes, ¬ survives w h m := by
  constructor
  · intro hn
    exact (closest_inv c w h modes).1 hn
  · intro hno
    cases hres : get_closest_mode c modes w h with
    | none => rfl
    | some b =>
      have hb := (closest_inv c w h modes).2 b hres
      exact absurd hb.surv (hno b hb.mem)

lemma closest_step_some_le (c : ScreenMode) (w h : Int) (b m : ScreenMode) :
    ∃ b', closest_step c w h (some b) m = some b' ∧
      b'.width ≤ b.width ∧ b'.height ≤ b.height := by
  rw [closest_step_eq]
  by_cases hs : survives w h m
  · rw [if_pos hs]
    refine ⟨pick c b m, rfl, ?_⟩
    unfold pick
    by_cases hd : strictlyDominates m b
    · rw [if_pos hd]
      exact ⟨hd.1, hd.2.1⟩
    · rw [if_neg hd]
      by_cases hc : m.width = b.width ∧ m.height = b.height ∧ score c b < score c m
      · rw [if_pos hc]
        exact ⟨le_of_eq hc.1, le_of_eq hc.2.1⟩
      · rw [if_neg hc]
        exact ⟨le_refl _, le_refl _⟩
  · rw [if_neg hs]
    exact ⟨b, rfl, le_refl _, le_refl _⟩

/-- Once the candidate is set, its dimensions only stay equal or shrink. -/
lemma foldl_from_some_le (c : ScreenMode) (w h : Int) :
    ∀ (post : List ScreenMode) (b b' : ScreenMode),
      post.foldl (closest_step c w h) (some b) = some b' →
      b'.width ≤ b.width ∧ b'.height ≤ b.height := by
  intro post
  induction post with
  | nil =>
    intro b b' hfold
    rw [List.foldl_nil] at hfold
    injection hfold with hfold
    subst hfold
    exact ⟨le_refl _, le_refl _⟩
  | cons x rest ih =>
    intro b b' hfold
    obtain ⟨b1, hb1, hw1, hh1⟩ := closest_step_some_le c w h b x
    rw [List.foldl_cons, hb1] at hfold
    obtain ⟨hw2, hh2⟩ := ih b1 b' hfold
    exact ⟨le_trans hw2 hw1, le_trans hh2 hh1⟩

lemma closest_append (c : ScreenMode) (w h : Int) (pre post : List ScreenMode) :
    get_closest_mode c (pre ++ post) w h =
      post.foldl (closest_step c w h) (get_closest_mode c pre w h) := by
  unfold get_closest_mode
  rw [List.foldl_append]

/-! ### Concrete modes used in counterexamples and witnesses -/

def mode_3x5 : ScreenMode := ⟨3, 5, none, none⟩

def mode_5x3 : ScreenMode := ⟨5, 3, none, none⟩

def mode_4x4 : ScreenMode := ⟨4, 4, none, none⟩

def mode_5x5 : ScreenMode := ⟨5, 5, none, none⟩

def plain_current : ScreenMode := ⟨1, 1, none, none⟩

def rich_3x5 : ScreenMode := ⟨3, 5, some 24, some 50⟩

def rich_5x3 : ScreenMode := ⟨5, 3, some 16, some 70⟩

def rich_current : ScreenMode := ⟨1, 1, some 32, some 60⟩

def low_3x3 : ScreenMode := ⟨3, 3, some 16, some 50⟩

def high_3x3 : ScreenMode := ⟨3, 3, some 32, some 60⟩

def current_3x3 : ScreenMode := ⟨0, 0, some 32, some 60⟩

/-! ### Claims -/

/-- Claim C1, counterexample to the claim as stated: with requested size 1×1
and available modes 3×5 and 5×3, both survive the size filter, the loop
returns the 3×5 mode, yet its height 5 is not ≤ the height 3 of the other
survivor.  The survivors need not be totally ordered by dominance, so no
returned mode can have "the smallest dimensions among the survivors". -/
theorem C1_counterexample :
    get_closest_mode plain_current [mode_3x5, mode_5x3] 1 1 = some mode_3x5 ∧
    survives 1 1 mode_5x3 ∧
    ¬ mode_3x5.height ≤ mode_5x3.height := by decide

/-- Claim C1 (amended): the mode returned by `Screen.get_closest_mode` is
minimal (not minimum) among the survivors: no surviving mode has both
dimensions ≤ the returned mode's with at least one strictly smaller. -/
theorem C1_returned_mode_minimal (c : ScreenMode) (w h : Int)
    (modes : List ScreenMode) (b : ScreenMode)
    (hb : get_closest_mode c modes w h = some b) :
    ∀ m ∈ modes, survives w h m → ¬ strictlyDominates m b :=
  ((closest_inv c w h modes).2 b hb).not_dominated

theorem C1_witness : ¬ strictlyDominates mode_5x3 mode_3x5 :=
  C1_returned_mode_minimal plain_current 1 1 [mode_3x5, mode_5x3] mode_3x5 (by decide)
    mode_5x3 (by decide) (by decide)

/-- Claim C2: a mode returned by `Screen.get_closest_mode(w, h)` is one of
the modes of `get_modes()` and has width ≥ w and height ≥ h. -/
theorem C2_returned_mode_survives (c : ScreenMode) (w h : Int)
    (modes : List ScreenMode) (m : ScreenMode)
    (hm : get_closest_mode c modes w h = some m) :
    m ∈ modes ∧ w ≤ m.width ∧ h ≤ m.height :=
  ⟨((closest_inv c w h modes).2 m hm).mem,
   ((closest_inv c w h modes).2 m hm).surv.1,
   ((closest_inv c w h modes).2 m hm).surv.2⟩

theorem C2_witness :
    mode_3x5 ∈ [mode_3x5, mode_5x3] ∧ (1 : Int) ≤ mode_3x5.width ∧
      (1 : Int) ≤ mode_3x5.height :=
  C2_returned_mode_survives plain_current 1 1 [mode_3x5, mode_5x3] mode_3x5 (by decide)

/-- Claim C3: `Screen.get_closest_mode(w, h)` returns `None` if and only if
no mode of `get_modes()` has both width ≥ w and height ≥ h; in particular it
returns `None` on an empty mode list and some mode whenever a mode survives
the filter. -/
theorem C3_none_iff_no_survivor (c : ScreenMode) (w h : Int)
    (modes : List ScreenMode) :
    get_closest_mode c modes w h = none ↔
      ∀ m ∈ modes, ¬ (w ≤ m.width ∧ h ≤ m.height) :=
  closest_none_iff c w h modes

/-- Claim C4: among surviving modes with the same dimensions as the returned
mode, the returned mode maximizes the tie-break score 2·(rate matches the
current mode's rate) + 1·(depth matches the current mode's depth). -/
theorem C4_tie_break_score_max (c : ScreenMode) (w h : Int)
    (modes : List ScreenMode) (b : ScreenMode)
    (hb : get_closest_mode c modes w h = some b) :
    ∀ m ∈ modes, survives w h m → m.width = b.width → m.height = b.height →
      score c m ≤ score c b :=
  ((closest_inv c w h modes).2 b hb).score_max

theorem C4_witness : score current_3x3 low_3x3 ≤ score current_3x3 high_3x3 :=
  C4_tie_break_score_max current_3x3 1 1 [low_3x3, high_3x3] high_3x3 (by decide)
    low_3x3 (by decide) (by decide) (by decide) (by decide)

/-- Claim C5, counterexample to the claim as stated: with requested size 1×1
and the incomparable survivors 3×5 (depth 24, rate 50) and 5×3 (depth 16,
rate 70), each order of `get_modes()` returns the mode listed first, so every
one of width, height, depth and rate differs between the two permutations. -/
theorem C5_counterexample :
    List.Perm [rich_3x5, rich_5x3] [rich_5x3, rich_3x5] ∧
    get_closest_mode rich_current [rich_3x5, rich_5x3] 1 1 = some rich_3x5 ∧
    get_closest_mode rich_current [rich_5x3, rich_3x5] 1 1 = some rich_5x3 ∧
    rich_3x5.width ≠ rich_5x3.width ∧ rich_3x5.height ≠ rich_5x3.height ∧
    rich_3x5.depth ≠ rich_5x3.depth ∧ rich_3x5.rate ≠ rich_5x3.rate :=
  ⟨List.Perm.swap rich_5x3 rich_3x5 [], by decide, by decide, by decide,
   by decide, by decide, by decide⟩

/-- Claim C5 (amended): only the `None`/non-`None` outcome of
`Screen.get_closest_mode` is independent of the order in which `get_modes()`
lists the modes; the selected mode itself (even its dimensions) may change
under permutation. -/
theorem C5_none_outcome_perm_invariant (c : ScreenMode) (w h : Int)
    (l1 l2 : List ScreenMode) (hp : l1.Perm l2) :
    (get_closest_mode c l1 w h = none ↔ get_closest_mode c l2 w h = none) := by
  rw [closest_none_iff, closest_none_iff]
  constructor
  · intro H m hm
    exact H m (hp.mem_iff.mpr hm)
  · intro H m hm
    exact H m (hp.mem_iff.mp hm)

theorem C5_witness :
    (get_closest_mode rich_current [rich_3x5, rich_5x3] 1 1 = none ↔
      get_closest_mode rich_current [rich_5x3, rich_3x5] 1 1 = none) :=
  C5_none_outcome_perm_invariant rich_current 1 1 [rich_3x5, rich_5x3]
    [rich_5x3, rich_3x5] (List.Perm.swap rich_5x3 rich_3x5 [])

/-- Claim C6: the OS-facing operations of the base classes —
`Display.get_screens`, `Screen.get_modes`, `Screen.get_mode`,
`Screen.set_mode`, `Screen.restore_mode` — all raise `NotImplementedError`,
regardless of arguments. -/
theorem C6_os_operations_unimplemented (mode : ScreenMode) :
    Display.get_screens = Except.error PyError.notImplementedError ∧
    Screen.get_modes = Except.error PyError.notImplementedError ∧
    Screen.get_mode = Except.error PyError.notImplementedError ∧
    Screen.set_mode mode = Except.error PyError.notImplementedError ∧
    Screen.restore_mode = Except.error PyError.notImplementedError :=
  ⟨rfl, rfl, rfl, rfl, rfl⟩

/-- Claim C7: `Screen.get_matching_configs` raises `NotImplementedError` on
the base class, and `Screen.get_best_config` does too, with or without a
template, since only `NoSuchConfigException` is caught in its template loop
and the `NotImplementedError` propagates. -/
theorem C7_config_negotiation_unimplemented (template : Option Config) :
    Screen.get_matching_configs template = Except.error PyError.notImplementedError ∧
    Screen.get_best_config template = Except.error PyError.notImplementedError := by
  cases template <;> exact ⟨rfl, rfl⟩

/-- Claim C8: if `get_modes()` contains a mode of exactly the requested
dimensions, then `Screen.get_closest_mode` returns some mode with exactly
those dimensions: an exact-size match is never passed over in favour of a
strictly larger mode. -/
theorem C8_exact_match_kept (c : ScreenMode) (w h : Int) (modes : List ScreenMode)
    (mode : ScreenMode) (hmem : mode ∈ modes) (hw : mode.width = w)
    (hh : mode.height = h) :
    get_closest_mode c modes w h ≠ none ∧
    ∀ b, get_closest_mode c modes w h = some b → b.width = w ∧ b.height = h := by
  have hsurv : survives w h mode := ⟨le_of_eq hw.symm, le_of_eq hh.symm⟩
  constructor
  · intro hn
    exact (closest_none_iff c w h modes).mp hn mode hmem hsurv
  · intro b hb
    have gb := (closest_inv c w h modes).2 b hb
    have hnd := gb.not_dominated mode hmem hsurv
    have h1 : w ≤ b.width := gb.surv.1
    have h2 : h ≤ b.height := gb.surv.2
    constructor
    · by_contra hne
      have hlt : w < b.width := lt_of_le_of_ne h1 (fun he => hne he.symm)
      exact hnd ⟨by rw [hw]; exact h1, by rw [hh]; exact h2,
        Or.inl (by rw [hw]; exact hlt)⟩
    · by_contra hne
      have hlt : h < b.height := lt_of_le_of_ne h2 (fun he => hne he.symm)
      exact hnd ⟨by rw [hw]; exact h1, by rw [hh]; exact h2,
        Or.inr (by rw [hh]; exact hlt)⟩

theorem C8_witness :
    get_closest_mode plain_current [mode_5x5, mode_4x4] 4 4 ≠ none ∧
    mode_4x4.width = 4 ∧ mode_4x4.height = 4 :=
  ⟨(C8_exact_match_kept plain_current 4 4 [mode_5x5, mode_4x4] mode_4x4 (by decide)
      (by decide) (by decide)).1,
   (C8_exact_match_kept plain_current 4 4 [mode_5x5, mode_4x4] mode_4x4 (by decide)
      (by decide) (by decide)).2 mode_4x4 (by decide)⟩

/-- Claim C9: the returned mode is minimal in the dominance order over
surviving modes, and this is a loop invariant: after any prefix of the mode
list, the candidate is never strictly dominated by an already-processed
survivor, and as the loop continues over any suffix the candidate's
dimensions only stay equal or shrink pointwise. -/
theorem C9_dominance_loop_invariant (c : ScreenMode) (w h : Int)
    (pre post : List ScreenMode) (b : ScreenMode)
    (hb : get_closest_mode c pre w h = some b) :
    (∀ m ∈ pre, survives w h m → ¬ strictlyDominates m b) ∧
    (∀ b', get_closest_mode c (pre ++ post) w h = some b' →
      b'.width ≤ b.width ∧ b'.height ≤ b.height) := by
  refine ⟨((closest_inv c w h pre).2 b hb).not_dominated, fun b' hb' => ?_⟩
  rw [closest_append, hb] at hb'
  exact foldl_from_some_le c w h post b b' hb'

theorem C9_witness :
    ¬ strictlyDominates mode_5x5 mode_5x5 ∧
    (mode_4x4.width ≤ mode_5x5.width ∧ mode_4x4.height ≤ mode_5x5.height) :=
  ⟨(C9_dominance_loop_invariant plain_current 4 4 [mode_5x5] [mode_4x4] mode_5x5
      (by decide)).1 mode_5x5 (by decide) (by decide),
   (C9_dominance_loop_invariant plain_current 4 4 [mode_5x5] [mode_4x4] mode_5x5
      (by decide)).2 mode_4x4 (by decide)⟩

/-- Claim C10: `Display.get_default_screen` returns exactly the first element
of the list produced by `get_screens()`, and raises `IndexError` (rather than
returning `None`) when that list is empty. -/
theorem C10_default_screen_is_first (s : Screen) (rest : List Screen) :
    Display.get_default_screen (Except.ok []) = Except.error PyError.indexError ∧
    Display.get_default_screen (Except.ok (s :: rest)) = Except.ok s :=
  ⟨rfl, rfl⟩

end Pyglet
